import Mathlib

/-!
The package godepo/logger: a context-scoped logging facade.

A shallow embedding of `logger.go` and the properties of its context binding
(`Wrap`, `With`, `From`), of the four top-level logging functions and of the
default-backend adapter `slogWrapper`.

Conventions of the embedding.

* The two collaborators of the package are modelled at their interface:
  `context` (an immutable chain of key/value bindings) and `log/slog` (a logger
  is a handler, which has a minimum level, together with the attributes bound
  to it so far; its emission primitive `LogAttrs` asks the handler whether the
  level is enabled and hands it one record if it is, none if it is not).
* The only mutable state is the `World`: the ambient default logger of
  `log/slog` (what `slog.Default()` returns, what `slog.SetDefault` replaces) and
  the trace of what was handed to the backend and to test substitutes.  Functions
  that only read the world take it as their last argument; functions with an
  effect return the new world.
* A method call through a nil interface value, or through a nil pointer of a
  pointer type implementing `Logger`, is a run-time panic in Go; such a call
  returns `none`.
* Contexts are non-nil context values (`context.WithValue` refuses a nil parent).
-/

namespace LoggerPkg

/-! ## Tags (`slog.Attr`) and levels (`slog.Level`) -/

/-- The value of a tag; the package passes it through without looking at it.
A group value is known by the keys of its members, which is all the backend
needs to tell an empty group from another value. -/
inductive AttrValue where
  | str (s : String)
  | int (i : Int)
  | bool (b : Bool)
  | group (keys : List String)
  deriving DecidableEq, Repr

/-- The test `Value.isEmptyGroup` of `log/slog`: a group with no member. -/
def AttrValue.isEmptyGroup : AttrValue → Bool
  | AttrValue.group [] => true
  | _ => false

/-- A tag, `slog.Attr`: a key and a value. -/
structure Attr where
  key : String
  value : AttrValue
  deriving DecidableEq, Repr

/-- Severity levels, `slog.Level` (an integer type). -/
abbrev Level := Int

/-- The constant `slog.LevelDebug`. -/
def LevelDebug : Level := -4

/-- The constant `slog.LevelInfo`. -/
def LevelInfo : Level := 0

/-- The constant `slog.LevelWarn`. -/
def LevelWarn : Level := 4

/-- The constant `slog.LevelError`. -/
def LevelError : Level := 8

/-! ## The backend, `log/slog`, at its interface -/

/-- An element of the `...any` argument list of `(*slog.Logger).With`: an
`Attr`, or a value of another type (loose key/value pairs, which the adapter
never passes, are not modelled). -/
inductive Arg where
  | attr (a : Attr)
  | other (v : AttrValue)
  deriving DecidableEq, Repr

/-- The key `log/slog` gives to an argument that comes without one. -/
def badKey : String := "!BADKEY"

/-- How `log/slog` turns the arguments of `With` into attributes: an `Attr`
stands for itself, another value gets the key `badKey`. -/
def argsToAttrSlice : List Arg → List Attr
  | [] => []
  | Arg.attr a :: rest => a :: argsToAttrSlice rest
  | Arg.other v :: rest => { key := badKey, value := v } :: argsToAttrSlice rest

/-- A handler of the backend, `slog.Handler`: an identity (the sink it writes
to) and the minimum level it lets through, as the handlers of `log/slog`
have. -/
structure Handler where
  id : Nat
  minLevel : Level
  deriving DecidableEq, Repr

/-- The handler `log/slog` installs as the default one when the program
starts: its minimum level is `slog.LevelInfo`. -/
def initialHandler : Handler := { id := 0, minLevel := LevelInfo }

/-- A backend logger, `*slog.Logger`: the handler it writes to and the
attributes bound to it so far, in the order they were bound.  A backend logger
is never modified once built, so the pointer is modelled by what it points
to. -/
structure SlogLogger where
  handler : Handler
  attrs : List Attr
  deriving DecidableEq, Repr

/-- What `Record.AddAttrs` of `log/slog` keeps of the attributes given to
`LogAttrs`: all of them, in order, but the empty groups. -/
def recordAttrs (attrs : List Attr) : List Attr :=
  attrs.filter (fun a => !a.value.isEmptyGroup)

/-- The bind-attributes primitive `(*slog.Logger).With`: with no argument the
receiver itself, otherwise a clone whose handler has the converted arguments
bound after those already there. -/
def SlogLogger.With (l : SlogLogger) (args : List Arg) : SlogLogger :=
  if args.length = 0 then l
  else { l with attrs := l.attrs ++ argsToAttrSlice args }

/-! ## The Logger interface and its implementations -/

/-- The adapter `slogWrapper`: a struct with one field, the backend logger. -/
structure slogWrapper where
  slog : SlogLogger
  deriving DecidableEq, Repr

/-- Modelled from the spec: a test substitute, the generated mock type
`MockLogger` that the tests bind and that is not among the sources.  It is a
Logger other than the adapter, known by an identity and by the tags it was
enriched with; its methods are observed as calls (see `Event`), and its `With`
is "a new logger capability instance" carrying the given tags "appended after
any tags the receiver already carries", the receiver being left as it is. -/
structure Substitute where
  id : Nat
  tags : List Attr
  deriving DecidableEq, Repr

/-- A dynamic value whose type implements `Logger`: an adapter, a substitute,
or a nil pointer of a pointer type that implements `Logger`, such as
`(*slogWrapper)(nil)` or a nil pointer to the generated mock (`t` tells the
pointer types apart).  A nil pointer in an interface is not the nil interface
value: the assertion to `Logger` succeeds on it, and a call of one of its
methods dereferences the pointer and panics. -/
inductive Impl where
  | adapter (w : slogWrapper)
  | substitute (s : Substitute)
  | nilPointer (t : Nat)
  deriving DecidableEq, Repr

/-- A value of the interface type `Logger`: nil, or a dynamic value of an
implementing type. -/
inductive Logger where
  | nil
  | dyn (v : Impl)
  deriving DecidableEq, Repr

/-- A value of the empty interface `any`, as a context stores it: nil, a value
of a type implementing `Logger`, or a value of any other type. -/
inductive Any where
  | nil
  | logger (v : Impl)
  | other (v : Nat)
  deriving DecidableEq, Repr

/-- Conversion of a `Logger` to `any` (passing it to `context.WithValue`): a nil
interface value stays nil. -/
def Logger.toAny : Logger → Any
  | Logger.nil => Any.nil
  | Logger.dyn v => Any.logger v

/-- The type assertion `x.(Logger)` in its two-result form: the value and
`true` when `x` is non-nil and its dynamic type implements `Logger`, the zero
value (nil) and `false` otherwise. -/
def assertLogger : Any → Logger × Bool
  | Any.logger v => (Logger.dyn v, true)
  | Any.nil => (Logger.nil, false)
  | Any.other _ => (Logger.nil, false)

/-! ## Contexts, `context.Context` -/

/-- A context key: a value of the package's unexported type `loggerTags`, or a
key of a foreign type (never equal to one of `loggerTags`). -/
inductive Key where
  | loggerTags (v : Int)
  | foreign (k : Nat)
  deriving DecidableEq, Repr

/-- The constant `logInstance loggerTags = iota`, the dedicated key. -/
def logInstance : Key := Key.loggerTags 0

/-- A context: the background context, a parent extended by one binding, or a
parent with a cancellation or a deadline added (`context.WithCancel`,
`context.WithDeadline`, `context.WithTimeout`), which binds nothing. -/
inductive Context where
  | background
  | withValue (parent : Context) (key : Key) (val : Any)
  | withCancel (parent : Context)
  deriving DecidableEq, Repr

/-- The lookup `ctx.Value(key)`: the innermost binding of the key, nil when
there is none. -/
def Context.Value : Context → Key → Any
  | Context.background, _ => Any.nil
  | Context.withValue parent k v, key => if k = key then v else parent.Value key
  | Context.withCancel parent, key => parent.Value key

/-- The function `context.WithValue`: a child context; the parent is not
touched. -/
def WithValue (parent : Context) (key : Key) (val : Any) : Context :=
  Context.withValue parent key val

/-! ## The world: ambient default and trace -/

/-- The four severity methods of `Logger`. -/
inductive Method where
  | Error
  | Info
  | Debug
  | Warn
  deriving DecidableEq, Repr

/-- What the package hands to its collaborators.
* `record l ctx level msg attrs`: one record of the given level, message and
  attributes, built by the backend logger `l` and handed with `ctx` to its
  handler;
* `call s m ctx msg tags`: one call of severity method `m` on the substitute `s`;
* `enrich s tags`: one call of `With` on the substitute `s`. -/
inductive Event where
  | record (l : SlogLogger) (ctx : Context) (level : Level) (msg : String) (attrs : List Attr)
  | call (s : Substitute) (m : Method) (ctx : Context) (msg : String) (tags : List Attr)
  | enrich (s : Substitute) (tags : List Attr)
  deriving DecidableEq, Repr

/-- The state outside the package: the ambient default logger of `log/slog` and
the trace of events so far. -/
structure World where
  ambient : SlogLogger
  trace : List Event
  deriving DecidableEq, Repr

/-- The function `slog.Default()`: reads the ambient default logger. -/
def slogDefault (σ : World) : SlogLogger := σ.ambient

/-- The function `slog.SetDefault(l)`: replaces the ambient default logger. -/
def slogSetDefault (l : SlogLogger) (σ : World) : World := { σ with ambient := l }

/-- The method `(*slog.Logger).Enabled(ctx, level)`, which asks the handler:
the level is enabled when it is at least the minimum level of the handler (the
handlers of `log/slog` do not look at the context). -/
def SlogLogger.Enabled (l : SlogLogger) (_ctx : Context) (level : Level) : Bool :=
  decide (l.handler.minLevel ≤ level)

/-- The emission primitive `(*slog.Logger).LogAttrs`: when the level is not
enabled it returns at once; otherwise it builds one record of the level and
the message, adds the attributes to it and hands it to the handler. -/
def SlogLogger.LogAttrs (l : SlogLogger) (ctx : Context) (level : Level) (msg : String)
    (attrs : List Attr) (σ : World) : World :=
  if !l.Enabled ctx level then σ
  else { σ with trace := σ.trace ++ [Event.record l ctx level msg (recordAttrs attrs)] }

/-! ## The adapter's methods (logger.go, lines 44-77) -/

/-- Method `slogWrapper.Error`. -/
def slogWrapper.Error (wrapper : slogWrapper) (ctx : Context) (message : String)
    (tags : List Attr) (σ : World) : World :=
  wrapper.slog.LogAttrs ctx LevelError message tags σ

/-- Method `slogWrapper.Info`. -/
def slogWrapper.Info (wrapper : slogWrapper) (ctx : Context) (message : String)
    (tags : List Attr) (σ : World) : World :=
  wrapper.slog.LogAttrs ctx LevelInfo message tags σ

/-- Method `slogWrapper.Debug`. -/
def slogWrapper.Debug (wrapper : slogWrapper) (ctx : Context) (message : String)
    (tags : List Attr) (σ : World) : World :=
  wrapper.slog.LogAttrs ctx LevelDebug message tags σ

/-- Method `slogWrapper.Warn`. -/
def slogWrapper.Warn (wrapper : slogWrapper) (ctx : Context) (message : String)
    (tags : List Attr) (σ : World) : World :=
  wrapper.slog.LogAttrs ctx LevelWarn message tags σ

/-- The loop of `slogWrapper.With`: starting from the empty slice, every tag is
appended to `fork`, boxed as `any`. -/
def forkTags (tags : List Attr) : List Arg :=
  tags.foldl (fun fork tag => fork ++ [Arg.attr tag]) []

/-- Method `slogWrapper.With`: a new adapter `out` whose backend logger is
`wrapper.slog.With(fork...)`, returned as a `Logger`. -/
def slogWrapper.With (wrapper : slogWrapper) (tags : List Attr) : Logger :=
  let fork := forkTags tags
  let out : slogWrapper := { slog := wrapper.slog.With fork }
  Logger.dyn (Impl.adapter out)

/-- The function `wrapSLog`: an adapter around `slog.Default()`. -/
def wrapSLog (σ : World) : slogWrapper :=
  { slog := slogDefault σ }

/-! ## The substitute's methods -/

/-- A severity method of a substitute: the call is observed. -/
def Substitute.log (s : Substitute) (m : Method) (ctx : Context) (message : String)
    (tags : List Attr) (σ : World) : World :=
  { σ with trace := σ.trace ++ [Event.call s m ctx message tags] }

/-- The `With` of a substitute: the call is observed and a new substitute
carrying the receiver's tags followed by the given ones is returned. -/
def Substitute.With (s : Substitute) (tags : List Attr) (σ : World) : Logger × World :=
  (Logger.dyn (Impl.substitute { s with tags := s.tags ++ tags }),
   { σ with trace := σ.trace ++ [Event.enrich s tags] })

/-! ## Method calls through the interface -/

/-- The call `l.Error(ctx, message, tags...)` through the interface. -/
def Logger.Error : Logger → Context → String → List Attr → World → Option World
  | Logger.nil, _, _, _, _ => none
  | Logger.dyn (Impl.adapter w), ctx, message, tags, σ => some (w.Error ctx message tags σ)
  | Logger.dyn (Impl.substitute s), ctx, message, tags, σ =>
      some (s.log Method.Error ctx message tags σ)
  | Logger.dyn (Impl.nilPointer _), _, _, _, _ => none

/-- The call `l.Info(ctx, message, tags...)` through the interface. -/
def Logger.Info : Logger → Context → String → List Attr → World → Option World
  | Logger.nil, _, _, _, _ => none
  | Logger.dyn (Impl.adapter w), ctx, message, tags, σ => some (w.Info ctx message tags σ)
  | Logger.dyn (Impl.substitute s), ctx, message, tags, σ =>
      some (s.log Method.Info ctx message tags σ)
  | Logger.dyn (Impl.nilPointer _), _, _, _, _ => none

/-- The call `l.Debug(ctx, message, tags...)` through the interface. -/
def Logger.Debug : Logger → Context → String → List Attr → World → Option World
  | Logger.nil, _, _, _, _ => none
  | Logger.dyn (Impl.adapter w), ctx, message, tags, σ => some (w.Debug ctx message tags σ)
  | Logger.dyn (Impl.substitute s), ctx, message, tags, σ =>
      some (s.log Method.Debug ctx message tags σ)
  | Logger.dyn (Impl.nilPointer _), _, _, _, _ => none

/-- The call `l.Warn(ctx, message, tags...)` through the interface. -/
def Logger.Warn : Logger → Context → String → List Attr → World → Option World
  | Logger.nil, _, _, _, _ => none
  | Logger.dyn (Impl.adapter w), ctx, message, tags, σ => some (w.Warn ctx message tags σ)
  | Logger.dyn (Impl.substitute s), ctx, message, tags, σ =>
      some (s.log Method.Warn ctx message tags σ)
  | Logger.dyn (Impl.nilPointer _), _, _, _, _ => none

/-- The call `l.With(tags...)` through the interface. -/
def Logger.With : Logger → List Attr → World → Option (Logger × World)
  | Logger.nil, _, _ => none
  | Logger.dyn (Impl.adapter w), tags, σ => some (w.With tags, σ)
  | Logger.dyn (Impl.substitute s), tags, σ => some (s.With tags σ)
  | Logger.dyn (Impl.nilPointer _), _, _ => none

/-! ## The context binding functions (logger.go, lines 23-38 and 79-93) -/

/-- The function `From`: the value under `logInstance` asserted to `Logger`, and
`wrapSLog()` when the assertion fails. -/
def From (ctx : Context) (σ : World) : Logger :=
  let (log, ok) := assertLogger (ctx.Value logInstance)
  if !ok then Logger.dyn (Impl.adapter (wrapSLog σ))
  else log

/-- The function `Wrap`. -/
def Wrap (ctx : Context) (logger : Logger) : Context :=
  WithValue ctx logInstance logger.toAny

/-- The function `With`: `context.WithValue(ctx, logInstance, From(ctx).With(attrs...))`. -/
def With (ctx : Context) (attrs : List Attr) (σ : World) : Option (Context × World) :=
  match (From ctx σ).With attrs σ with
  | none => none
  | some (l, σ1) => some (WithValue ctx logInstance l.toAny, σ1)

/-- The top-level function `Error`. -/
def Error (ctx : Context) (message : String) (tags : List Attr) (σ : World) : Option World :=
  (From ctx σ).Error ctx message tags σ

/-- The top-level function `Info`. -/
def Info (ctx : Context) (message : String) (tags : List Attr) (σ : World) : Option World :=
  (From ctx σ).Info ctx message tags σ

/-- The top-level function `Debug`. -/
def Debug (ctx : Context) (message : String) (tags : List Attr) (σ : World) : Option World :=
  (From ctx σ).Debug ctx message tags σ

/-- The top-level function `Warn`. -/
def Warn (ctx : Context) (message : String) (tags : List Attr) (σ : World) : Option World :=
  (From ctx σ).Warn ctx message tags σ

/-! ## Notions used to state the properties -/

/-- The tags a Logger value carries: for an adapter the attributes bound to
its backend logger, for a substitute the tags it was enriched with. -/
def Logger.tags : Logger → List Attr
  | Logger.nil => []
  | Logger.dyn (Impl.adapter w) => w.slog.attrs
  | Logger.dyn (Impl.substitute s) => s.tags
  | Logger.dyn (Impl.nilPointer _) => []

/-- The default logger of a world: the adapter around the ambient default. -/
def defaultLogger (σ : World) : Logger :=
  Logger.dyn (Impl.adapter { slog := σ.ambient })

/-- A context has a logger bound: the value under the dedicated key is of a type
implementing `Logger`. -/
def Context.bound (ctx : Context) : Prop :=
  ∃ v, ctx.Value logInstance = Any.logger v

/-- A Logger value is usable: each of its five methods can be called on it
without a panic, whatever the arguments. -/
def Logger.usable (l : Logger) : Prop :=
  ∀ (ctx : Context) (message : String) (tags : List Attr) (σ : World),
    (l.Error ctx message tags σ).isSome = true ∧ (l.Info ctx message tags σ).isSome = true ∧
    (l.Debug ctx message tags σ).isSome = true ∧ (l.Warn ctx message tags σ).isSome = true ∧
    (l.With tags σ).isSome = true

/-- The world when the program starts: the ambient default logger writes to
the initial handler and has no attribute bound, and nothing has happened. -/
def initialWorld : World :=
  { ambient := { handler := initialHandler, attrs := [] }, trace := [] }

/-! ## Lemmas on the collaborators -/

/-- The loop of `slogWrapper.With`, started from any slice, appends the boxed
tags in their order. -/
theorem foldl_fork (tags : List Attr) (acc : List Arg) :
    tags.foldl (fun fork tag => fork ++ [Arg.attr tag]) acc = acc ++ tags.map Arg.attr := by
  induction tags generalizing acc with
  | nil => simp
  | cons t ts ih => simp [ih]

/-- The slice `fork` holds every tag once, boxed, in the order of the tags. -/
theorem forkTags_eq_map (tags : List Attr) : forkTags tags = tags.map Arg.attr := by
  simp [forkTags, foldl_fork]

/-- Converting boxed tags gives the tags back. -/
theorem argsToAttrSlice_map_attr (tags : List Attr) :
    argsToAttrSlice (tags.map Arg.attr) = tags := by
  induction tags with
  | nil => rfl
  | cons t ts ih => simp [argsToAttrSlice, ih]

/-- Binding boxed tags to a backend logger keeps its handler and appends the
tags to its attributes (for no tag, the logger itself). -/
theorem SlogLogger.With_forkTags (l : SlogLogger) (tags : List Attr) :
    l.With (forkTags tags) = { handler := l.handler, attrs := l.attrs ++ tags } := by
  cases tags with
  | nil => simp [SlogLogger.With, forkTags]
  | cons t ts =>
    simp [SlogLogger.With, forkTags_eq_map, argsToAttrSlice, argsToAttrSlice_map_attr]

/-- The tags of the adapter's `With`: those of the receiver, then the new ones. -/
theorem slogWrapper.With_eq (w : slogWrapper) (tags : List Attr) :
    w.With tags =
      Logger.dyn (Impl.adapter { slog := { handler := w.slog.handler, attrs := w.slog.attrs ++ tags } }) := by
  simp [slogWrapper.With, SlogLogger.With_forkTags]

/-- What `LogAttrs` does, by whether the level is enabled. -/
theorem SlogLogger.LogAttrs_eq (l : SlogLogger) (ctx : Context) (level : Level) (msg : String)
    (attrs : List Attr) (σ : World) :
    l.LogAttrs ctx level msg attrs σ =
      if l.Enabled ctx level = true then
        { ambient := σ.ambient,
          trace := σ.trace ++ [Event.record l ctx level msg (recordAttrs attrs)] }
      else σ := by
  unfold SlogLogger.LogAttrs
  cases l.Enabled ctx level <;> simp

/-! ## Lemmas on resolution -/

/-- Resolution when a Logger is bound under the key. -/
theorem From_of_logger (ctx : Context) (σ : World) (v : Impl)
    (h : ctx.Value logInstance = Any.logger v) : From ctx σ = Logger.dyn v := by
  simp [From, h, assertLogger]

/-- Resolution when the value under the key is nil. -/
theorem From_of_nil (ctx : Context) (σ : World)
    (h : ctx.Value logInstance = Any.nil) : From ctx σ = defaultLogger σ := by
  simp [From, h, assertLogger, defaultLogger, wrapSLog, slogDefault]

/-- Resolution when the value under the key is of a type that is no Logger. -/
theorem From_of_other (ctx : Context) (σ : World) (n : Nat)
    (h : ctx.Value logInstance = Any.other n) : From ctx σ = defaultLogger σ := by
  simp [From, h, assertLogger, defaultLogger, wrapSLog, slogDefault]

/-- Resolution when no Logger is bound under the key. -/
theorem From_of_not_bound (ctx : Context) (σ : World) (h : ¬ ctx.bound) :
    From ctx σ = defaultLogger σ := by
  cases hv : ctx.Value logInstance with
  | nil => exact From_of_nil ctx σ hv
  | other n => exact From_of_other ctx σ n hv
  | logger v => exact absurd ⟨v, hv⟩ h

/-- The lookup of the dedicated key in a context extended under that key. -/
theorem Value_WithValue (ctx : Context) (x : Any) :
    (WithValue ctx logInstance x).Value logInstance = x := by
  simp [WithValue, Context.Value]

/-- Resolution never gives the nil interface value. -/
theorem From_ne_nil (ctx : Context) (σ : World) : From ctx σ ≠ Logger.nil := by
  cases hv : ctx.Value logInstance with
  | nil => rw [From_of_nil ctx σ hv]; simp [defaultLogger]
  | other n => rw [From_of_other ctx σ n hv]; simp [defaultLogger]
  | logger v => rw [From_of_logger ctx σ v hv]; simp

/-- Resolution reads the ambient default only. -/
theorem From_congr (ctx : Context) (σ τ : World) (h : σ.ambient = τ.ambient) :
    From ctx σ = From ctx τ := by
  cases hv : ctx.Value logInstance with
  | nil => rw [From_of_nil ctx σ hv, From_of_nil ctx τ hv]; simp [defaultLogger, h]
  | other n => rw [From_of_other ctx σ n hv, From_of_other ctx τ n hv]; simp [defaultLogger, h]
  | logger v => rw [From_of_logger ctx σ v hv, From_of_logger ctx τ v hv]

/-- Resolution in a context extended by a Logger under the dedicated key. -/
theorem From_WithValue_logger (ctx : Context) (v : Impl) (σ : World) :
    From (WithValue ctx logInstance (Any.logger v)) σ = Logger.dyn v :=
  From_of_logger _ σ v (Value_WithValue ctx (Any.logger v))

/-! ## Lemmas on usable loggers -/

/-- An adapter is usable. -/
theorem usable_adapter (w : slogWrapper) : (Logger.dyn (Impl.adapter w)).usable := by
  intro ctx message tags σ
  simp [Logger.Error, Logger.Info, Logger.Debug, Logger.Warn, Logger.With]

/-- A substitute is usable. -/
theorem usable_substitute (s : Substitute) : (Logger.dyn (Impl.substitute s)).usable := by
  intro ctx message tags σ
  simp [Logger.Error, Logger.Info, Logger.Debug, Logger.Warn, Logger.With]

/-- A nil pointer is not usable: its methods panic. -/
theorem not_usable_nilPointer (t : Nat) : ¬ (Logger.dyn (Impl.nilPointer t)).usable := by
  intro h
  have h1 := (h Context.background "" []
    { ambient := { handler := initialHandler, attrs := [] }, trace := [] }).1
  simp [Logger.Error] at h1

/-- A non-nil Logger value is usable exactly when it is no nil pointer. -/
theorem usable_iff (v : Impl) : (Logger.dyn v).usable ↔ ∀ t : Nat, v ≠ Impl.nilPointer t := by
  cases v with
  | adapter w => exact ⟨fun _ t => by simp, fun _ => usable_adapter w⟩
  | substitute s => exact ⟨fun _ t => by simp, fun _ => usable_substitute s⟩
  | nilPointer t => exact ⟨fun h => absurd h (not_usable_nilPointer t), fun h => absurd rfl (h t)⟩

/-- The default logger is usable. -/
theorem usable_default (σ : World) : (defaultLogger σ).usable :=
  usable_adapter _

/-- Logging through a context that has a usable Logger bound does not panic. -/
theorem logging_ok_of_logger (ctx : Context) (v : Impl)
    (h : ctx.Value logInstance = Any.logger v) (hu : (Logger.dyn v).usable)
    (m : String) (tags : List Attr) (τ : World) :
    (Error ctx m tags τ).isSome = true ∧ (Info ctx m tags τ).isSome = true ∧
    (Debug ctx m tags τ).isSome = true ∧ (Warn ctx m tags τ).isSome = true := by
  have hf := From_of_logger ctx τ v h
  have hm := hu ctx m tags τ
  simp only [Error, Info, Debug, Warn, hf]
  exact ⟨hm.1, hm.2.1, hm.2.2.1, hm.2.2.2.1⟩

/-! ## Lemmas on the function With -/

/-- The function `With` on a context that resolves to an adapter: the world is
left as it is and the adapter bound in the derived context has the same
handler and the receiver's attributes followed by the tags. -/
theorem With_of_adapter (ctx : Context) (tags : List Attr) (σ : World) (w : slogWrapper)
    (h : From ctx σ = Logger.dyn (Impl.adapter w)) :
    With ctx tags σ = some (WithValue ctx logInstance (Any.logger (Impl.adapter
      { slog := { handler := w.slog.handler, attrs := w.slog.attrs ++ tags } })), σ) := by
  simp [With, h, Logger.With, slogWrapper.With_eq, Logger.toAny]

/-- The function `With` on a context that resolves to a substitute: the call of
the substitute's `With` is observed and the enriched substitute is bound. -/
theorem With_of_substitute (ctx : Context) (tags : List Attr) (σ : World) (s : Substitute)
    (h : From ctx σ = Logger.dyn (Impl.substitute s)) :
    With ctx tags σ = some (WithValue ctx logInstance (Any.logger (Impl.substitute
      { id := s.id, tags := s.tags ++ tags })),
      { ambient := σ.ambient, trace := σ.trace ++ [Event.enrich s tags] }) := by
  simp [With, h, Logger.With, Substitute.With, Logger.toAny]

/-- The function `With` on a context that resolves to a nil pointer: the call of
its `With` panics. -/
theorem With_of_nilPointer (ctx : Context) (tags : List Attr) (σ : World) (t : Nat)
    (h : From ctx σ = Logger.dyn (Impl.nilPointer t)) :
    With ctx tags σ = none ∧ (From ctx σ).With tags σ = none := by
  simp [With, h, Logger.With]

/-- The function `With` on a context whose resolved logger is usable: it
succeeds, the derived context binds what `With` of the resolved logger returns,
a usable logger carrying the tags of the resolved logger followed by the new
ones, and the ambient default is left as it is. -/
theorem With_spec (ctx : Context) (tags : List Attr) (σ : World) (hu : (From ctx σ).usable) :
    ∃ v1 σ1, (From ctx σ).With tags σ = some (Logger.dyn v1, σ1) ∧
      With ctx tags σ = some (WithValue ctx logInstance (Any.logger v1), σ1) ∧
      σ1.ambient = σ.ambient ∧
      (Logger.dyn v1).tags = (From ctx σ).tags ++ tags ∧ (Logger.dyn v1).usable := by
  cases h : From ctx σ with
  | nil => exact absurd h (From_ne_nil ctx σ)
  | dyn v =>
    cases v with
    | adapter w =>
      refine ⟨Impl.adapter { slog := { handler := w.slog.handler, attrs := w.slog.attrs ++ tags } },
        σ, ?_, With_of_adapter ctx tags σ w h, rfl, ?_, usable_adapter _⟩
      · simp [Logger.With, slogWrapper.With_eq]
      · simp [Logger.tags]
    | substitute s =>
      refine ⟨Impl.substitute { id := s.id, tags := s.tags ++ tags },
        { ambient := σ.ambient, trace := σ.trace ++ [Event.enrich s tags] }, ?_,
        With_of_substitute ctx tags σ s h, rfl, ?_, usable_substitute _⟩
      · simp [Logger.With, Substitute.With]
      · simp [Logger.tags]
    | nilPointer t =>
      rw [h] at hu
      exact absurd hu (not_usable_nilPointer t)

/-- The function `With` panics exactly when the resolved logger is not usable. -/
theorem With_none_of_not_usable (ctx : Context) (tags : List Attr) (σ : World)
    (hu : ¬ (From ctx σ).usable) :
    With ctx tags σ = none ∧ (From ctx σ).With tags σ = none := by
  cases h : From ctx σ with
  | nil => exact absurd h (From_ne_nil ctx σ)
  | dyn v =>
    cases v with
    | adapter w => rw [h] at hu; exact absurd (usable_adapter w) hu
    | substitute s => rw [h] at hu; exact absurd (usable_substitute s) hu
    | nilPointer t =>
      have := With_of_nilPointer ctx tags σ t h
      rw [h] at this
      exact this

/-- When the function `With` returns, the resolved logger was usable. -/
theorem usable_of_With (ctx : Context) (tags : List Attr) (σ : World) (r : Context × World)
    (h : With ctx tags σ = some r) : (From ctx σ).usable := by
  by_contra hu
  rw [(With_none_of_not_usable ctx tags σ hu).1] at h
  cases h

/-! ## Binding and resolution -/

/-- C1: for every context C and every logger L (a value of a type implementing
Logger; the nil interface value is no logger and is treated under C7), the
context Wrap(C, L) has exactly L under the dedicated key and From(Wrap(C, L))
returns exactly L, whatever C has bound under that key: nothing, a value that
is no Logger, or an earlier logger, as when C is itself Wrap(C, L0). -/
theorem From_Wrap_faithful (C : Context) (L : Impl) (σ : World) :
    (Wrap C (Logger.dyn L)).Value logInstance = Any.logger L ∧
    From (Wrap C (Logger.dyn L)) σ = Logger.dyn L ∧
    (∀ L0 : Logger, From (Wrap (Wrap C L0) (Logger.dyn L)) σ = Logger.dyn L) := by
  have key : ∀ C1 : Context, (Wrap C1 (Logger.dyn L)).Value logInstance = Any.logger L := by
    intro C1
    simp [Wrap, Value_WithValue, Logger.toAny]
  exact ⟨key C, From_of_logger _ σ L (key C), fun L0 => From_of_logger _ σ L (key _)⟩

/-- C3: the two-step resolution rule of From, for every context C.  If the
value under the dedicated key is of a type implementing Logger, From(C) is that
value; in every other case (no such Logger bound: the value under the key is nil,
which is also what an absent binding gives, or it is of another type) From(C)
is the adapter that wrapSLog builds around the ambient default of the backend.
From is a total function whose result is a Logger: there is no error to
report. -/
theorem From_resolution (C : Context) (σ : World) :
    (∀ v : Impl, C.Value logInstance = Any.logger v → From C σ = Logger.dyn v) ∧
    (¬ C.bound → From C σ = Logger.dyn (Impl.adapter (wrapSLog σ))) ∧
    (C.Value logInstance = Any.nil → From C σ = Logger.dyn (Impl.adapter (wrapSLog σ))) ∧
    (∀ n : Nat, C.Value logInstance = Any.other n →
      From C σ = Logger.dyn (Impl.adapter (wrapSLog σ))) ∧
    wrapSLog σ = { slog := slogDefault σ } ∧ slogDefault σ = σ.ambient := by
  refine ⟨fun v h => From_of_logger C σ v h, fun h => ?_, fun h => ?_, fun n h => ?_, rfl, rfl⟩
  · rw [From_of_not_bound C σ h]; rfl
  · rw [From_of_nil C σ h]; rfl
  · rw [From_of_other C σ n h]; rfl

/-- C3 at concrete inputs: a context in which Wrap bound a substitute resolves
to that substitute; a context with a value of another type under the dedicated
key resolves to the adapter around the ambient default. -/
theorem From_resolution_witness :
    From (Wrap Context.background (Logger.dyn (Impl.substitute { id := 1, tags := [] })))
        initialWorld =
      Logger.dyn (Impl.substitute { id := 1, tags := [] }) ∧
    From (Context.withValue Context.background logInstance (Any.other 5)) initialWorld =
      Logger.dyn (Impl.adapter (wrapSLog initialWorld)) :=
  ⟨(From_resolution
      (Wrap Context.background (Logger.dyn (Impl.substitute { id := 1, tags := [] })))
      initialWorld).1 (Impl.substitute { id := 1, tags := [] }) (by decide),
   (From_resolution (Context.withValue Context.background logInstance (Any.other 5))
      initialWorld).2.2.2.1 5 (by decide)⟩

/-- C7, as stated, fails: Wrap accepts a nil pointer of a pointer type that
implements Logger; it is bound as it is, From returns it as the bound value,
and this value is not usable: a call of Info through it panics. -/
theorem From_returns_unusable_nil_pointer :
    From (Wrap Context.background (Logger.dyn (Impl.nilPointer 0))) initialWorld =
      Logger.dyn (Impl.nilPointer 0) ∧
    (From (Wrap Context.background (Logger.dyn (Impl.nilPointer 0))) initialWorld).Info
      Context.background "hello" [] initialWorld = none ∧
    ¬ (From (Wrap Context.background (Logger.dyn (Impl.nilPointer 0))) initialWorld).usable := by
  have e : From (Wrap Context.background (Logger.dyn (Impl.nilPointer 0))) initialWorld =
      Logger.dyn (Impl.nilPointer 0) := by decide
  refine ⟨e, by decide, ?_⟩
  rw [e]
  exact not_usable_nilPointer 0

/-- C7, amended: resolution is total and never gives the absent value.  For
every context C, From(C) returns a Logger that is not the nil interface value,
and that is either the value bound in C or the default logger.  The default
logger is usable, so From(C) is usable whenever C has no logger bound; a bound
value is returned as it is, so From(C) is then usable exactly when the bound
value is no nil pointer.  This holds in particular for a context Wrap(C1, L)
with any argument L, a nil Logger among them: there From gives L itself or the
default logger, never nil, and for the nil Logger it gives the default logger,
which is usable. -/
theorem From_total_never_nil (C : Context) (σ : World) :
    From C σ ≠ Logger.nil ∧
    ((From C σ).toAny = C.Value logInstance ∨ From C σ = defaultLogger σ) ∧
    (defaultLogger σ).usable ∧
    (¬ C.bound → (From C σ).usable) ∧
    (∀ v : Impl, C.Value logInstance = Any.logger v →
      From C σ = Logger.dyn v ∧ ((From C σ).usable ↔ ∀ t : Nat, v ≠ Impl.nilPointer t)) ∧
    (∀ (C1 : Context) (L : Logger),
      From (Wrap C1 L) σ ≠ Logger.nil ∧
      (From (Wrap C1 L) σ = L ∨ From (Wrap C1 L) σ = defaultLogger σ)) ∧
    (∀ C1 : Context, From (Wrap C1 Logger.nil) σ = defaultLogger σ ∧
      (From (Wrap C1 Logger.nil) σ).usable) := by
  have wrapNil : ∀ C1 : Context, From (Wrap C1 Logger.nil) σ = defaultLogger σ := by
    intro C1
    apply From_of_nil
    simp [Wrap, Value_WithValue, Logger.toAny]
  refine ⟨From_ne_nil C σ, ?_, usable_default σ, ?_, ?_, ?_, ?_⟩
  · cases hv : C.Value logInstance with
    | nil => exact Or.inr (From_of_nil C σ hv)
    | other n => exact Or.inr (From_of_other C σ n hv)
    | logger v => left; rw [From_of_logger C σ v hv]; rfl
  · intro hb
    rw [From_of_not_bound C σ hb]
    exact usable_default σ
  · intro v hv
    have e := From_of_logger C σ v hv
    exact ⟨e, by rw [e]; exact usable_iff v⟩
  · intro C1 L
    refine ⟨From_ne_nil _ σ, ?_⟩
    cases L with
    | nil => exact Or.inr (wrapNil C1)
    | dyn v =>
      left
      apply From_of_logger
      simp [Wrap, Value_WithValue, Logger.toAny]
  · intro C1
    exact ⟨wrapNil C1, by rw [wrapNil C1]; exact usable_default σ⟩

/-! ## The top-level logging functions -/

/-- C2: for every context ctx, message m and tag list T, each of the top-level
functions Error, Info, Debug and Warn is the method of the same name called on
From(ctx) with (ctx, m, T).  So when a substitute logger SL is bound in ctx, the
call adds to the trace exactly one event, a call on SL of the matching method
with the same ctx, the same message and the same tags in the same order, and
nothing else changes. -/
theorem top_level_dispatch (ctx : Context) (m : String) (T : List Attr) (σ : World) :
    (Error ctx m T σ = (From ctx σ).Error ctx m T σ ∧
     Info ctx m T σ = (From ctx σ).Info ctx m T σ ∧
     Debug ctx m T σ = (From ctx σ).Debug ctx m T σ ∧
     Warn ctx m T σ = (From ctx σ).Warn ctx m T σ) ∧
    (∀ SL : Substitute, ctx.Value logInstance = Any.logger (Impl.substitute SL) →
      Error ctx m T σ = some { ambient := σ.ambient,
                               trace := σ.trace ++ [Event.call SL Method.Error ctx m T] } ∧
      Info ctx m T σ = some { ambient := σ.ambient,
                              trace := σ.trace ++ [Event.call SL Method.Info ctx m T] } ∧
      Debug ctx m T σ = some { ambient := σ.ambient,
                               trace := σ.trace ++ [Event.call SL Method.Debug ctx m T] } ∧
      Warn ctx m T σ = some { ambient := σ.ambient,
                              trace := σ.trace ++ [Event.call SL Method.Warn ctx m T] }) := by
  refine ⟨⟨rfl, rfl, rfl, rfl⟩, fun SL h => ?_⟩
  have hf := From_of_logger ctx σ _ h
  simp [Error, Info, Debug, Warn, hf, Logger.Error, Logger.Info, Logger.Debug, Logger.Warn,
    Substitute.log]

/-- The scenario of the specification for C2: the substitute SL is bound by
Wrap in the background context, giving C1; Info(C1, "hello", tag("a","b")) is
one call of Info on SL with (C1, "hello", [tag("a","b")]). -/
theorem top_level_dispatch_witness :
    (Wrap Context.background (Logger.dyn (Impl.substitute { id := 7, tags := [] }))).Value
        logInstance = Any.logger (Impl.substitute { id := 7, tags := [] }) ∧
    Info (Wrap Context.background (Logger.dyn (Impl.substitute { id := 7, tags := [] })))
        "hello" [{ key := "a", value := AttrValue.str "b" }] initialWorld =
      some { ambient := initialWorld.ambient,
             trace := initialWorld.trace ++ [Event.call { id := 7, tags := [] } Method.Info
               (Wrap Context.background (Logger.dyn (Impl.substitute { id := 7, tags := [] })))
               "hello" [{ key := "a", value := AttrValue.str "b" }]] } :=
  ⟨by decide,
   ((top_level_dispatch
      (Wrap Context.background (Logger.dyn (Impl.substitute { id := 7, tags := [] })))
      "hello" [{ key := "a", value := AttrValue.str "b" }] initialWorld).2
      { id := 7, tags := [] } (by decide)).2.1⟩

/-! ## Enrichment through the context -/

/-- C4: for every context C0 and tags tagA, tagB, the logger resolved from
With(With(C0, tagA), tagB) carries the tags of the logger resolved from C0
followed by tagA and then tagB: the second enrichment appends to the first,
the order of insertion is kept, and both tags are kept whatever their keys
(the tags form a list, nothing is merged by key).  When C0 resolves to an
adapter, the resolved logger is the adapter on the same handler with those
attributes, and when C0 has no logger bound they are the attributes of the
ambient default followed by tagA and tagB.  The two calls of With return
whenever the logger resolved from C0 is usable, as it is when C0 has no logger
bound; the one other case is a nil pointer bound in C0, on which With
panics and there is no derived context. -/
theorem With_With_accumulates (C0 : Context) (tagA tagB : Attr) (σ : World) :
    (∀ C1 σ1 C2 σ2, With C0 [tagA] σ = some (C1, σ1) → With C1 [tagB] σ1 = some (C2, σ2) →
      (From C2 σ2).tags = (From C0 σ).tags ++ [tagA, tagB] ∧
      (∀ w : slogWrapper, From C0 σ = Logger.dyn (Impl.adapter w) →
        From C2 σ2 = Logger.dyn (Impl.adapter
          { slog := { handler := w.slog.handler, attrs := w.slog.attrs ++ [tagA, tagB] } })) ∧
      (¬ C0.bound → (From C2 σ2).tags = σ.ambient.attrs ++ [tagA, tagB])) ∧
    ((From C0 σ).usable →
      ∃ C1 σ1 C2 σ2, With C0 [tagA] σ = some (C1, σ1) ∧ With C1 [tagB] σ1 = some (C2, σ2)) ∧
    (¬ C0.bound → (From C0 σ).usable) ∧
    (¬ (From C0 σ).usable → With C0 [tagA] σ = none) := by
  have total : (From C0 σ).usable →
      ∃ C1 σ1 C2 σ2, With C0 [tagA] σ = some (C1, σ1) ∧ With C1 [tagB] σ1 = some (C2, σ2) ∧
        (From C2 σ2).tags = (From C0 σ).tags ++ [tagA, tagB] ∧
        (∀ w : slogWrapper, From C0 σ = Logger.dyn (Impl.adapter w) →
          From C2 σ2 = Logger.dyn (Impl.adapter
            { slog := { handler := w.slog.handler, attrs := w.slog.attrs ++ [tagA, tagB] } })) ∧
        (¬ C0.bound → (From C2 σ2).tags = σ.ambient.attrs ++ [tagA, tagB]) := by
    intro hu
    cases h : From C0 σ with
    | nil => exact absurd h (From_ne_nil C0 σ)
    | dyn v =>
      cases v with
      | adapter w =>
        refine ⟨_, _, _, _, With_of_adapter C0 [tagA] σ w h,
          With_of_adapter _ [tagB] σ _ (From_WithValue_logger _ _ σ), ?_, ?_, ?_⟩
        · simp [From_WithValue_logger, Logger.tags]
        · intro w1 hw
          cases hw
          simp [From_WithValue_logger]
        · intro hb
          have hd := From_of_not_bound C0 σ hb
          rw [h] at hd
          simp only [defaultLogger, Logger.dyn.injEq, Impl.adapter.injEq] at hd
          simp [From_WithValue_logger, Logger.tags, hd]
      | substitute s =>
        refine ⟨_, _, _, _, With_of_substitute C0 [tagA] σ s h,
          With_of_substitute _ [tagB] _ _ (From_WithValue_logger _ _ _), ?_, ?_, ?_⟩
        · simp [From_WithValue_logger, Logger.tags]
        · intro w1 hw
          cases hw
        · intro hb
          have hd := From_of_not_bound C0 σ hb
          rw [h] at hd
          simp [defaultLogger] at hd
      | nilPointer t =>
        rw [h] at hu
        exact absurd hu (not_usable_nilPointer t)
  refine ⟨?_, ?_, ?_, fun hu => (With_none_of_not_usable C0 [tagA] σ hu).1⟩
  · intro C1 σ1 C2 σ2 h1 h2
    obtain ⟨D1, τ1, D2, τ2, e1, e2, rest⟩ := total (usable_of_With C0 [tagA] σ _ h1)
    rw [e1] at h1
    cases h1
    rw [e2] at h2
    cases h2
    exact rest
  · intro hu
    obtain ⟨D1, τ1, D2, τ2, e1, e2, _⟩ := total hu
    exact ⟨D1, τ1, D2, τ2, e1, e2⟩
  · intro hb
    rw [From_of_not_bound C0 σ hb]
    exact usable_default σ

/-- C4 at a concrete input: from the background context, which has no logger
bound, both calls of With return. -/
theorem With_With_accumulates_witness :
    ∃ C1 σ1 C2 σ2,
      With Context.background [{ key := "k", value := AttrValue.int 1 }] initialWorld =
        some (C1, σ1) ∧
      With C1 [{ key := "k", value := AttrValue.int 2 }] σ1 = some (C2, σ2) :=
  (With_With_accumulates Context.background { key := "k", value := AttrValue.int 1 }
    { key := "k", value := AttrValue.int 2 } initialWorld).2.1
    ((With_With_accumulates Context.background { key := "k", value := AttrValue.int 1 }
      { key := "k", value := AttrValue.int 2 } initialWorld).2.2.1
      (by simp [Context.bound, Context.Value]))

/-- The scenario of the specification for the order of accumulation, with two
tags of the same key: after With with k=1 and then With with k=2 from the
background context, the resolved logger is the adapter on the ambient handler
carrying both tags, k=1 before k=2. -/
theorem scenario_With_With_same_key :
    (With Context.background [{ key := "k", value := AttrValue.int 1 }] initialWorld).bind
      (fun r => (With r.1 [{ key := "k", value := AttrValue.int 2 }] r.2).map
        (fun r2 => From r2.1 r2.2)) =
      some (Logger.dyn (Impl.adapter
        { slog := { handler := initialHandler,
                    attrs := [{ key := "k", value := AttrValue.int 1 },
                              { key := "k", value := AttrValue.int 2 }] } })) := by
  decide

/-- C5: for every context C and tag list T, With(C, T) leaves what From(C)
returns unchanged: in the world after the call From(C) is the Logger it was
before, carrying the tags it carried before, while the derived context
resolves to a Logger that carries those tags followed by T; the ambient
default, the only state From reads, is not changed by the call.  The call
returns whenever the logger resolved from C is usable, as it is when C has no
logger bound. -/
theorem With_leaves_source (C : Context) (T : List Attr) (σ : World) :
    (∀ C1 σ1, With C T σ = some (C1, σ1) →
      σ1.ambient = σ.ambient ∧ From C σ1 = From C σ ∧
      (From C σ1).tags = (From C σ).tags ∧
      (From C1 σ1).tags = (From C σ).tags ++ T) ∧
    ((From C σ).usable → ∃ C1 σ1, With C T σ = some (C1, σ1)) ∧
    (¬ C.bound → (From C σ).usable) ∧
    (∀ τ : World, τ.ambient = σ.ambient → From C τ = From C σ) := by
  refine ⟨?_, ?_, ?_, fun τ h => From_congr C τ σ h⟩
  · intro C1 σ1 h
    obtain ⟨v1, τ1, _, h2, h3, h4, _⟩ := With_spec C T σ (usable_of_With C T σ _ h)
    rw [h2] at h
    cases h
    have hf : From C σ1 = From C σ := From_congr C σ1 σ h3
    refine ⟨h3, hf, by rw [hf], ?_⟩
    rw [From_WithValue_logger, h4]
  · intro hu
    obtain ⟨v1, τ1, _, h2, _⟩ := With_spec C T σ hu
    exact ⟨_, _, h2⟩
  · intro hb
    rw [From_of_not_bound C σ hb]
    exact usable_default σ

/-- C5 at a concrete input: on the context in which Wrap bound a substitute,
With returns. -/
theorem With_leaves_source_witness :
    ∃ C1 σ1,
      With (Wrap Context.background (Logger.dyn (Impl.substitute { id := 1, tags := [] })))
        [{ key := "k", value := AttrValue.int 1 }] initialWorld = some (C1, σ1) :=
  (With_leaves_source
    (Wrap Context.background (Logger.dyn (Impl.substitute { id := 1, tags := [] })))
    [{ key := "k", value := AttrValue.int 1 }] initialWorld).2.1
    (by
      have e : From (Wrap Context.background
          (Logger.dyn (Impl.substitute { id := 1, tags := [] }))) initialWorld =
          Logger.dyn (Impl.substitute { id := 1, tags := [] }) := by decide
      rw [e]
      exact usable_substitute _)

/-- C6: for every context C and tag list T, From(With(C, T)) is what
From(C).With(T) returns: the two computations agree, in their result and in
the world they leave, and With(C, T) returns whenever the logger resolved from
C is usable (on a nil pointer bound in C both panic); logging through the
derived context at any of the four levels succeeds.  In particular, when C has
no logger bound, With returns without an effect on the world, the derived
context has a logger bound, namely the default logger (the adapter wrapSLog
builds) enriched with T, which carries the attributes of the ambient default
followed by T, and logging through the derived context at any of the four
levels raises no error. -/
theorem From_With (C : Context) (T : List Attr) (σ : World) :
    ((With C T σ).map (fun r => (From r.1 r.2, r.2)) = (From C σ).With T σ) ∧
    (∀ C1 σ1, With C T σ = some (C1, σ1) →
      (From C σ).With T σ = some (From C1 σ1, σ1) ∧
      (∀ (m : String) (tags : List Attr) (τ : World),
        (Error C1 m tags τ).isSome = true ∧ (Info C1 m tags τ).isSome = true ∧
        (Debug C1 m tags τ).isSome = true ∧ (Warn C1 m tags τ).isSome = true)) ∧
    ((From C σ).usable → ∃ C1 σ1, With C T σ = some (C1, σ1)) ∧
    (¬ C.bound → ∃ C1 L1, With C T σ = some (C1, σ) ∧ From C1 σ = L1 ∧
      C1.bound ∧ C1.Value logInstance = L1.toAny ∧
      L1 = (wrapSLog σ).With T ∧ L1.tags = σ.ambient.attrs ++ T ∧
      (∀ (m : String) (tags : List Attr) (τ : World),
        (Error C1 m tags τ).isSome = true ∧ (Info C1 m tags τ).isSome = true ∧
        (Debug C1 m tags τ).isSome = true ∧ (Warn C1 m tags τ).isSome = true)) := by
  have returned : ∀ C1 σ1, With C T σ = some (C1, σ1) →
      (From C σ).With T σ = some (From C1 σ1, σ1) ∧
      (∀ (m : String) (tags : List Attr) (τ : World),
        (Error C1 m tags τ).isSome = true ∧ (Info C1 m tags τ).isSome = true ∧
        (Debug C1 m tags τ).isSome = true ∧ (Warn C1 m tags τ).isSome = true) := by
    intro C1 σ1 h
    obtain ⟨v1, τ1, h1, h2, _, _, hu1⟩ := With_spec C T σ (usable_of_With C T σ _ h)
    rw [h2] at h
    cases h
    refine ⟨by rw [From_WithValue_logger]; exact h1, fun m tags τ => ?_⟩
    exact logging_ok_of_logger _ v1 (Value_WithValue C _) hu1 m tags τ
  refine ⟨?_, returned, ?_, ?_⟩
  · by_cases hu : (From C σ).usable
    · obtain ⟨v1, τ1, h1, h2, _⟩ := With_spec C T σ hu
      rw [h2, h1]
      simp [From_WithValue_logger]
    · obtain ⟨h1, h2⟩ := With_none_of_not_usable C T σ hu
      rw [h1, h2]
      rfl
  · intro hu
    obtain ⟨v1, τ1, _, h2, _⟩ := With_spec C T σ hu
    exact ⟨_, _, h2⟩
  · intro hb
    have hd := From_of_not_bound C σ hb
    have hw := With_of_adapter C T σ { slog := σ.ambient } hd
    refine ⟨_, _, hw, rfl, ⟨_, Value_WithValue C _⟩, ?_, ?_, ?_, (returned _ _ hw).2⟩
    · simp [From_WithValue_logger, Value_WithValue, Logger.toAny]
    · simp [From_WithValue_logger, slogWrapper.With_eq, wrapSLog, slogDefault]
    · simp [From_WithValue_logger, Logger.tags]

/-- C6 at a concrete input: on the background context With returns. -/
theorem From_With_witness :
    ∃ C1 σ1, With Context.background [{ key := "key", value := AttrValue.str "value" }]
      initialWorld = some (C1, σ1) :=
  (From_With Context.background [{ key := "key", value := AttrValue.str "value" }]
    initialWorld).2.2.1
    (by
      have e : From Context.background initialWorld = defaultLogger initialWorld := by decide
      rw [e]
      exact usable_default _)

/-! ## The default logger -/

/-- C8, as stated, fails: the background context has no logger bound; the
first resolution, in the world at the start of the program, returns the
adapter around the ambient default logger, on the initial handler; after
`slog.SetDefault` with a backend logger on another handler, the next resolution
returns the adapter around the new ambient default, which is another logger
than the first and not one built from the ambient default as read at the first
resolution. -/
theorem default_logger_not_constructed_once :
    ¬ Context.background.bound ∧
    From Context.background initialWorld =
      Logger.dyn (Impl.adapter { slog := { handler := initialHandler, attrs := [] } }) ∧
    From Context.background
        (slogSetDefault { handler := { id := 1, minLevel := LevelDebug }, attrs := [] }
          initialWorld) =
      Logger.dyn (Impl.adapter
        { slog := { handler := { id := 1, minLevel := LevelDebug }, attrs := [] } }) ∧
    From Context.background
        (slogSetDefault { handler := { id := 1, minLevel := LevelDebug }, attrs := [] }
          initialWorld) ≠
      From Context.background initialWorld := by
  refine ⟨?_, by decide, by decide, by decide⟩
  simp [Context.bound, Context.Value]

/-- C8, amended: the default logger is not kept between calls.  Every From call
on a context with no logger bound returns the adapter that wrapSLog builds at
that call around the ambient default as read at that call; two such calls made
while the ambient default is the same (whatever else differs: the contexts,
the trace) return equal loggers, and these behave identically. -/
theorem default_logger_per_call (C C1 : Context) (σ τ : World)
    (hC : ¬ C.bound) (hC1 : ¬ C1.bound) (h : σ.ambient = τ.ambient) :
    From C σ = Logger.dyn (Impl.adapter (wrapSLog σ)) ∧ (wrapSLog σ).slog = σ.ambient ∧
    From C1 τ = From C σ ∧
    (∀ (ctx : Context) (m : String) (T : List Attr) (ω : World),
      (From C1 τ).Error ctx m T ω = (From C σ).Error ctx m T ω ∧
      (From C1 τ).Info ctx m T ω = (From C σ).Info ctx m T ω ∧
      (From C1 τ).Debug ctx m T ω = (From C σ).Debug ctx m T ω ∧
      (From C1 τ).Warn ctx m T ω = (From C σ).Warn ctx m T ω ∧
      (From C1 τ).With T ω = (From C σ).With T ω) := by
  have e : From C1 τ = From C σ := by
    rw [From_of_not_bound C1 τ hC1, From_of_not_bound C σ hC, defaultLogger, defaultLogger, h]
  refine ⟨?_, rfl, e, fun ctx m T ω => ?_⟩
  · rw [From_of_not_bound C σ hC]; rfl
  · rw [e]; exact ⟨rfl, rfl, rfl, rfl, rfl⟩

/-- The amended C8 at a concrete input: the background context, and the context
that binds a value of another type under the dedicated key, resolved in two
worlds with the same ambient default and different traces. -/
theorem default_logger_per_call_witness :
    From (Context.withValue Context.background logInstance (Any.other 3))
        { ambient := { handler := initialHandler, attrs := [] },
          trace := [Event.enrich { id := 1, tags := [] } []] } =
      From Context.background initialWorld :=
  (default_logger_per_call Context.background
    (Context.withValue Context.background logInstance (Any.other 3))
    initialWorld
    { ambient := { handler := initialHandler, attrs := [] },
      trace := [Event.enrich { id := 1, tags := [] } []] }
    (by simp [Context.bound, Context.Value])
    (by simp [Context.bound, Context.Value])
    rfl).2.2.1

/-! ## The default-backend adapter -/

/-- C9, as stated, fails.  On the adapter around the ambient default logger as
the program starts, whose handler lets through the levels from
`slog.LevelInfo` on, Debug hands `LogAttrs` a level that is not enabled: no
record is emitted and the world is left as it was.  And where the level is
enabled, as for Error, the record does not carry T unchanged when T holds an
empty group: the record has the tags of T but the empty groups. -/
theorem Debug_emits_no_record_by_default :
    (wrapSLog initialWorld).Debug Context.background "test"
        [{ key := "key", value := AttrValue.str "value" }] initialWorld = initialWorld ∧
    ((wrapSLog initialWorld).Debug Context.background "test"
        [{ key := "key", value := AttrValue.str "value" }] initialWorld).trace = [] ∧
    (wrapSLog initialWorld).Error Context.background ""
        [{ key := "g", value := AttrValue.group [] }, { key := "k", value := AttrValue.int 1 }]
        initialWorld =
      { ambient := initialWorld.ambient,
        trace := [Event.record (wrapSLog initialWorld).slog Context.background LevelError ""
          [{ key := "k", value := AttrValue.int 1 }]] } := by
  decide

/-- C9, amended: for every adapter w, context ctx, message m (any string, the
empty one included) and tag list T, each severity method is exactly one call
of the emission primitive LogAttrs of the backend logger of w, at the level of
the method (Error at `slog.LevelError`, Warn at `slog.LevelWarn`, Info at
`slog.LevelInfo`, Debug at `slog.LevelDebug`; the four levels are pairwise
distinct), with ctx, m and T passed as they were given.  The backend then
emits exactly one record at that level, with ctx, m and the tags of T other
than empty groups, in the order of T, when the backend logger is enabled for
the level, and it emits no record and changes nothing when it is not. -/
theorem slogWrapper_one_LogAttrs_call (w : slogWrapper) (ctx : Context) (m : String)
    (T : List Attr) (σ : World) :
    (w.Error ctx m T σ = w.slog.LogAttrs ctx LevelError m T σ ∧
     w.Warn ctx m T σ = w.slog.LogAttrs ctx LevelWarn m T σ ∧
     w.Info ctx m T σ = w.slog.LogAttrs ctx LevelInfo m T σ ∧
     w.Debug ctx m T σ = w.slog.LogAttrs ctx LevelDebug m T σ) ∧
    (w.Error ctx m T σ =
      if w.slog.Enabled ctx LevelError = true then
        { ambient := σ.ambient,
          trace := σ.trace ++ [Event.record w.slog ctx LevelError m (recordAttrs T)] }
      else σ) ∧
    (w.Warn ctx m T σ =
      if w.slog.Enabled ctx LevelWarn = true then
        { ambient := σ.ambient,
          trace := σ.trace ++ [Event.record w.slog ctx LevelWarn m (recordAttrs T)] }
      else σ) ∧
    (w.Info ctx m T σ =
      if w.slog.Enabled ctx LevelInfo = true then
        { ambient := σ.ambient,
          trace := σ.trace ++ [Event.record w.slog ctx LevelInfo m (recordAttrs T)] }
      else σ) ∧
    (w.Debug ctx m T σ =
      if w.slog.Enabled ctx LevelDebug = true then
        { ambient := σ.ambient,
          trace := σ.trace ++ [Event.record w.slog ctx LevelDebug m (recordAttrs T)] }
      else σ) ∧
    ((∀ a ∈ T, a.value.isEmptyGroup = false) → recordAttrs T = T) ∧
    (recordAttrs T).Sublist T ∧
    (LevelError ≠ LevelWarn ∧ LevelError ≠ LevelInfo ∧ LevelError ≠ LevelDebug ∧
     LevelWarn ≠ LevelInfo ∧ LevelWarn ≠ LevelDebug ∧ LevelInfo ≠ LevelDebug) := by
  refine ⟨⟨rfl, rfl, rfl, rfl⟩, SlogLogger.LogAttrs_eq _ _ _ _ _ _, SlogLogger.LogAttrs_eq _ _ _ _ _ _,
    SlogLogger.LogAttrs_eq _ _ _ _ _ _, SlogLogger.LogAttrs_eq _ _ _ _ _ _, ?_, ?_, ?_⟩
  · intro h
    unfold recordAttrs
    rw [List.filter_eq_self]
    intro a ha
    simp [h a ha]
  · exact List.filter_sublist T
  · decide

/-- The amended C9 at concrete inputs: on the adapter around a backend logger
whose handler lets every level through, Debug with the empty message and one
tag emits one record at debug level with that tag. -/
theorem slogWrapper_one_LogAttrs_call_witness :
    slogWrapper.Debug { slog := { handler := { id := 2, minLevel := LevelDebug }, attrs := [] } }
        Context.background "" [{ key := "key", value := AttrValue.str "value" }] initialWorld =
      { ambient := initialWorld.ambient,
        trace := [Event.record { handler := { id := 2, minLevel := LevelDebug }, attrs := [] }
          Context.background LevelDebug "" [{ key := "key", value := AttrValue.str "value" }]] } :=
  ((slogWrapper_one_LogAttrs_call
    { slog := { handler := { id := 2, minLevel := LevelDebug }, attrs := [] } }
    Context.background "" [{ key := "key", value := AttrValue.str "value" }]
    initialWorld).2.2.2.2.1).trans (by decide)

/-- C10: for every adapter w and tag list T, w.With(T) is a new adapter whose
backend logger is the bind-attributes primitive of the backend applied to the
backend logger of w with the slice fork; fork holds exactly the elements of T,
boxed, as many as T has and in the order of T, so the backend binds exactly T:
the result is on the handler of w and carries the attributes of w followed by
T.  The call changes nothing else: through the interface it returns this
result together with the world as it was, and the receiver, passed by value
and never assigned to, still has the backend logger it had. -/
theorem slogWrapper_With_frame (w : slogWrapper) (T : List Attr) (σ : World) :
    w.With T = Logger.dyn (Impl.adapter { slog := w.slog.With (forkTags T) }) ∧
    forkTags T = T.map Arg.attr ∧ (forkTags T).length = T.length ∧
    argsToAttrSlice (forkTags T) = T ∧
    w.slog.With (forkTags T) = { handler := w.slog.handler, attrs := w.slog.attrs ++ T } ∧
    (Logger.dyn (Impl.adapter w)).With T σ = some (w.With T, σ) := by
  refine ⟨rfl, forkTags_eq_map T, ?_, ?_, SlogLogger.With_forkTags w.slog T, rfl⟩
  · simp [forkTags_eq_map]
  · rw [forkTags_eq_map, argsToAttrSlice_map_attr]

/-! ## The scenario of the tests -/

/-- The scenario of `TestWith`: from the background context, With binds the
default adapter enriched with key=value and leaves the world as it was.  Error
through the derived context emits one record at error level on that backend
logger, with the message "test"; Debug through it succeeds and, the initial
handler letting through the levels from info on, emits no record. -/
theorem scenario_With_then_log :
    With Context.background [{ key := "key", value := AttrValue.str "value" }] initialWorld =
      some (Context.withValue Context.background logInstance (Any.logger (Impl.adapter
        { slog := { handler := initialHandler,
                    attrs := [{ key := "key", value := AttrValue.str "value" }] } })),
        initialWorld) ∧
    Error (Context.withValue Context.background logInstance (Any.logger (Impl.adapter
        { slog := { handler := initialHandler,
                    attrs := [{ key := "key", value := AttrValue.str "value" }] } })))
        "test" [] initialWorld =
      some { ambient := initialWorld.ambient,
             trace := [Event.record
               { handler := initialHandler,
                 attrs := [{ key := "key", value := AttrValue.str "value" }] }
               (Context.withValue Context.background logInstance (Any.logger (Impl.adapter
                 { slog := { handler := initialHandler,
                             attrs := [{ key := "key", value := AttrValue.str "value" }] } })))
               LevelError "test" []] } ∧
    Debug (Context.withValue Context.background logInstance (Any.logger (Impl.adapter
        { slog := { handler := initialHandler,
                    attrs := [{ key := "key", value := AttrValue.str "value" }] } })))
        "test" [] initialWorld = some initialWorld := by
  decide

end LoggerPkg
